import Mathlib

/-
Shallow embedding of the pwdgen pattern language (repository EricKnox/pwdgen).

The repository has two C source files with the same function names:
  * src/unnamed/part_000 : the feature-complete variant (escape handling in
    `check`, `randchar` and `generate`), embedded below in namespace `P000`.
  * src/pwdgen.c         : the variant without escape handling, embedded below
    in namespace `PwdgenC` (only its `check` and `main` are needed by claims).

Modelling conventions:
  * A C string is a `List Char`; reading `ipt[j]` at an index at or past the
    end of the list yields `'\x00'`, which models the NUL terminator.
    (`charAt` below.)  Scanning stops at `'\x00'` exactly where the C loop
    condition `*ipt != '\0'` stops.
  * The left-to-right scanners (`check`, the class scan of `randchar`,
    `strtol`'s digit loop) walk the pointer forward only, so they are embedded
    structurally over the remaining list (the suffix of the pattern that `ipt`
    points to), carrying the absolute offset `i = ipt - ipt_origin` and the
    look-behind characters `p1 = ipt[-1]`, `p2 = ipt[-2]` as explicit state.
  * `generate` jumps backwards (`ipt = ipt_origin - 1` replays a group body),
    so it is embedded with absolute offsets plus an explicit fuel argument;
    `none` means the fuel ran out.  All theorems below use enough fuel.
  * `rand()` is modelled as an arbitrary stream `g : Nat -> Nat` of draws
    together with a counter `k` indexing the next unused draw.
  * Reads of bytes before the start of the buffer (`ipt[-1]` when `ipt` is at
    offset 0) are undefined behaviour in C; the model yields `'\x00'` there.
    No claim depends on such a pattern.
  * `chars[rand() % len]` with `len = 0` divides by zero in C; the model
    yields `List.getD` of an empty list, i.e. `'\x00'`.  Claim C1 is about
    whether this situation is reachable.
-/

/-- Byte read `ipt[j]` of a C string: the NUL terminator (and anything past
it) reads as `'\x00'`. -/
def charAt (s : List Char) (i : Nat) : Char := s.getD i '\x00'

/-- The test `*ipt < '!' || *ipt > '~'` of `check` (both variants), negated:
the byte is in the printable range 0x21..0x7E. -/
def isPrintable (c : Char) : Bool := decide (0x21 ≤ c.toNat) && decide (c.toNat ≤ 0x7E)

/-- The test `ipt[2] > '0' && ipt[2] <= '9'` guarding the `*N` repetition
suffix in `randchar` and `generate` (first digit 1..9). -/
def isDigit19 (c : Char) : Bool := decide ('0'.toNat < c.toNat) && decide (c.toNat ≤ '9'.toNat)

/-- The test used by `strtol`'s digit loop: a decimal digit 0..9. -/
def isDigit09 (c : Char) : Bool := decide ('0'.toNat ≤ c.toNat) && decide (c.toNat ≤ '9'.toNat)

/-- An ASCII letter A-Z or a-z (used to state the end-to-end property of the
class `[A-Za-z]`). -/
def isAsciiLetter (c : Char) : Bool :=
  (decide ('A'.toNat ≤ c.toNat) && decide (c.toNat ≤ 'Z'.toNat))
  || (decide ('a'.toNat ≤ c.toNat) && decide (c.toNat ≤ 'z'.toNat))

/-- `strfind(tar, chars, len)` from both source files.  The C loop scans the
array slots `0..len` inclusive: slots `0..len-1` hold the characters added so
far (the list `lst` here) and slot `len` still holds the `0` byte of the
zero-initialised `char chars[256] = {0}` buffer, which is the `[]` base case.
So the target is found iff it occurs in the filled prefix or is `'\x00'`. -/
def strfind (tar : Char) : List Char → Bool
  | [] => decide (tar = '\x00')
  | c :: rest => decide (tar = c) || strfind tar rest

/-- One conditional insertion `if (!strfind(c, chars, len)) chars[len++] = c;`
from `randchar` (both variants). -/
def addIfAbsent (chars : List Char) (c : Char) : List Char :=
  if strfind c chars then chars else chars ++ [c]

/-- The range-expansion loop `for (c = A; iterations; ++c) if (!strfind ...)
chars[len++] = c;` of `randchar` (part_000): starting code `a`, `n` loop
iterations, each adding the code if absent. -/
def addCodes (chars : List Char) (a : Nat) : Nat → List Char
  | 0 => chars
  | n + 1 => addCodes (addIfAbsent chars (Char.ofNat a)) (a + 1) n

/-- The digit loop of `strtol(p, &endp, 10)` as used in `randchar` and
`generate`: both call sites start it on a byte already known to be a digit
1..9, so no whitespace/sign handling is reachable.  `rem` is the string
suffix at the start position, `i` the absolute offset of that position;
returns (value, offset one past the digit run).  C's `long` overflow is not
modelled; every claim uses small counts. -/
def parseDigitsAux : List Char → Nat → Nat → Nat × Nat
  | [], i, acc => (acc, i)
  | c :: rest, i, acc =>
    if isDigit09 c then parseDigitsAux rest (i + 1) (acc * 10 + (c.toNat - '0'.toNat))
    else (acc, i)

/-- `strtol` digit run starting at absolute offset `p` of pattern `s`. -/
def parseDigits (s : List Char) (p : Nat) : Nat × Nat :=
  parseDigitsAux (s.drop p) p 0

namespace P000

/-- `check` from src/unnamed/part_000, embedded as a scan over the remaining
pattern `rem` with state: absolute offset `i` (`ipt - ipt_origin`), look-behind
bytes `p1 = ipt[-1]` and `p2 = ipt[-2]`, the flag `in` and the counter
`level`.  The empty list is the NUL terminator (also matched explicitly for
lists containing `'\x00'`).  Faithful to the C operator precedence:
`!in || a && b && c` is `!in || (a && b && c)`, and the descending-range test
in the `'-'` case runs whether or not `in` is set.  The `case '\\'` of the C
switch is lifted to the top-level patterns (a backslash byte matches none of
the literals tested before it in the switch, so the order is preserved): it
rejects when `ipt[1]` is outside 0x21..0x7E (in particular at end of input)
and otherwise consumes both bytes. -/
def checkAux : List Char → Nat → Char → Char → Bool → Nat → Bool
  | [], _, _, _, inC, level => !inC && decide (level = 0)
  | '\\' :: d :: rest', i, _, _, inC, level =>
    if !isPrintable d then false else checkAux rest' (i + 2) d '\\' inC level
  | '\\' :: [], _, _, _, _, _ => false
  | c :: rest, i, p1, p2, inC, level =>
    if c = '\x00' then !inC && decide (level = 0)
    else if !isPrintable c then false
    else if c = '[' then
      (if inC then false else checkAux rest (i + 1) c p1 true level)
    else if c = ']' then
      (if !inC || (decide (p1 = '[') && decide (2 ≤ i) && !decide (p2 = '\\')) then false
       else checkAux rest (i + 1) c p1 false level)
    else if c = '(' then
      (if inC then false else checkAux rest (i + 1) c p1 inC (level + 1))
    else if c = ')' then
      (if inC || decide (level = 0) then false else checkAux rest (i + 1) c p1 inC (level - 1))
    else if c = '-' then
      (if inC && ((decide (p1 = '[') && decide (2 ≤ i) && !decide (p2 = '\\'))
                  || decide (rest.headD '\x00' = ']')) then false
       else if (if rest.headD '\x00' = '\\' then (rest.drop 1).headD '\x00'
                else rest.headD '\x00').toNat < p1.toNat then false
       else checkAux rest (i + 1) c p1 inC level)
    else checkAux rest (i + 1) c p1 inC level

/-- `check(ipt)` from src/unnamed/part_000 (initial look-behind bytes are
before the buffer, modelled as `'\x00'`). -/
def check (s : List Char) : Bool := checkAux s 0 '\x00' '\x00' false 0

/-- The class-scan loop `for (; *ipt != ']'; ++ipt)` of `randchar`
(part_000): `rem` is the suffix at the current position, `prev = ipt[-1]`,
`i` the absolute offset, `chars` the working set built so far.  Returns the
set and the absolute offset of the closing `']'`.  On `'-'` it adds the codes
`ipt[-1]+1 .. end-1` (the loop `for (c = ipt[-1]+1; c < end; ++c)`) where
`end` is `ipt[1]`, or `ipt[2]` if `ipt[1]` is a backslash; the endpoint
characters themselves are added by the ordinary item steps before and after
the dash.  A `'\\'` item consumes two bytes and adds the escaped byte; it is
lifted to the top-level patterns (a backslash matches neither `']'` nor `'-'`,
the two values tested before it, so the order is preserved).  Reaching the end
of the list (the NUL terminator, where the C loop would run off the buffer:
undefined behaviour) stops the scan; a trailing backslash likewise runs the
`strfind` on the terminator byte (which never inserts) and stops. -/
def classScanAux : List Char → Char → Nat → List Char → List Char × Nat
  | [], _, i, chars => (chars, i)
  | '\\' :: d :: rest', _, i, chars => classScanAux rest' d (i + 2) (addIfAbsent chars d)
  | '\\' :: [], _, i, chars => (addIfAbsent chars '\x00', i)
  | c :: rest, prev, i, chars =>
    if c = ']' then (chars, i)
    else if c = '-' then
      let e := if rest.headD '\x00' = '\\' then (rest.drop 1).headD '\x00'
               else rest.headD '\x00'
      classScanAux rest '-' (i + 1)
        (addCodes chars (prev.toNat + 1) (e.toNat - (prev.toNat + 1)))
    else classScanAux rest c (i + 1) (addIfAbsent chars c)

/-- Class scan of `randchar` started at absolute offset `b` (the byte just
after the opening `'['`, so `ipt[-1]` is the byte at `b - 1`). -/
def classScan (s : List Char) (b : Nat) : List Char × Nat :=
  classScanAux (s.drop b) (charAt s (b - 1)) b []

/-- The expanded working set of the class whose body starts at offset `b`. -/
def classChars (s : List Char) (b : Nat) : List Char :=
  (classScan s b).1

/-- `randchar(ipt)` from src/unnamed/part_000, for the class whose body
starts at absolute offset `b`, drawing from the random stream `g` starting at
counter `k`.  Returns (bytes written by `putchar`, the C return value
`ipt - ipt_origin - 1`, the new draw counter).  The draw expression is
`chars[rand() % len]`; `len = 0` is undefined behaviour in C (modelled as the
`getD` default `'\x00'`). -/
def randchar (g : Nat → Nat) (s : List Char) (b k : Nat) : List Char × Nat × Nat :=
  let chars := classChars s b
  let e := (classScan s b).2
  if charAt s (e + 1) = '*' && isDigit19 (charAt s (e + 2)) then
    let n := (parseDigits s (e + 2)).1
    let d := (parseDigits s (e + 2)).2
    (((List.range n).map fun j => chars.getD (g (k + j) % chars.length) '\x00'),
      d - b - 1, k + n)
  else
    (((List.range 1).map fun j => chars.getD (g (k + j) % chars.length) '\x00'),
      (e + 1) - b - 1, k + 1)

/-- The draw expression `chars[rand() % len]` of `randchar` for the class
whose body starts at offset `b`, using draw number `k` of the stream `g`. -/
def drawFrom (s : List Char) (b : Nat) (g : Nat → Nat) (k : Nat) : Char :=
  (classChars s b).getD (g k % (classChars s b).length) '\x00'

/-- `generate(ipt)` from src/unnamed/part_000.  One call processes the
sequence whose own `ipt_origin` is `origin`; `i` is the current offset, `t`
and `time` the execution counter and target of the `')'` repetition logic,
`exitp` the saved `ipt_exit` offset, `k` the draw counter.  Fuel bounds the
recursion (the C function need not terminate on unvalidated input); `none`
means the fuel ran out.  Returns (bytes written, the C return value, final
draw counter). -/
def generateAux (g : Nat → Nat) (s : List Char) :
    Nat → Nat → Nat → Nat → Nat → Nat → Nat → Option (List Char × Nat × Nat)
  | 0, _, _, _, _, _, _ => none
  | fuel + 1, origin, i, t, time, exitp, k =>
    if charAt s i = '\x00' then some ([], i - origin, k)
    else if charAt s i = '(' then
      -- ++ipt; ipt += generate(ipt); then the loop's ++ipt
      match generateAux g s fuel (i + 1) (i + 1) 0 0 0 k with
      | none => none
      | some (out1, r, k1) =>
        match generateAux g s fuel origin (i + 1 + r + 1) t time exitp k1 with
        | none => none
        | some (out2, r2, k2) => some (out1 ++ out2, r2, k2)
    else if charAt s i = ')' then
      if time = 0 then
        if charAt s (i + 1) = '*' && isDigit19 (charAt s (i + 2)) then
          let n := (parseDigits s (i + 2)).1
          let d := (parseDigits s (i + 2)).2
          -- time = strtol(ipt += 2, &ipt_exit, 10); if (++t < time) replay
          if t + 1 < n then generateAux g s fuel origin origin (t + 1) n d k
          else some ([], d - origin - 1, k)
        else some ([], (i + 1) - origin - 1, k)
      else
        if t + 1 < time then generateAux g s fuel origin origin (t + 1) time exitp k
        else some ([], exitp - origin - 1, k)
    else if charAt s i = '[' then
      -- ipt += randchar(++ipt); then the loop's ++ipt
      let rc := randchar g s (i + 1) k
      match generateAux g s fuel origin (i + 1 + rc.2.1 + 1) t time exitp rc.2.2 with
      | none => none
      | some (out2, r2, k2) => some (rc.1 ++ out2, r2, k2)
    else if charAt s i = '\\' then
      -- ++ipt; then fall through to default: putchar(*ipt)
      match generateAux g s fuel origin (i + 2) t time exitp k with
      | none => none
      | some (out2, r2, k2) => some (charAt s (i + 1) :: out2, r2, k2)
    else
      match generateAux g s fuel origin (i + 1) t time exitp k with
      | none => none
      | some (out2, r2, k2) => some (charAt s i :: out2, r2, k2)

/-- Top-level `generate(ipt)` call of `main` (part_000), with fuel. -/
def generate (g : Nat → Nat) (s : List Char) (fuel : Nat) :
    Option (List Char × Nat × Nat) :=
  generateAux g s fuel 0 0 0 0 0 0

/-- The exit logic of `main` (part_000): returns the process status and
whether generation was attempted.  `hasPattern` is `flags & FLAG_DEFINITION`:
without it `main` prints and returns -1; a pattern rejected by `check`
returns -2; otherwise the generation loop runs and `main` returns 0. -/
def main (hasPattern : Bool) (pat : List Char) : Int × Bool :=
  if !hasPattern then (-1, false)
  else if !check pat then (-2, false)
  else (0, true)

end P000

namespace PwdgenC

/-- `check` from src/pwdgen.c, same state-passing embedding as
`P000.checkAux` but with this variant's rules: no escape handling at all, the
`']'` case rejects when `*(ipt-1) == ']'`, and the whole `'-'` rule
(including the descending test `*(ipt+1) < *(ipt-1)`) only applies inside a
class.  Only `p1 = ipt[-1]` is consulted, so no `p2` state is carried. -/
def checkAux : List Char → Char → Bool → Nat → Bool
  | [], _, inC, level => !inC && decide (level = 0)
  | c :: rest, p1, inC, level =>
    if c = '\x00' then !inC && decide (level = 0)
    else if !isPrintable c then false
    else if c = '[' then
      (if inC then false else checkAux rest c true level)
    else if c = ']' then
      (if !inC || decide (p1 = ']') then false else checkAux rest c false level)
    else if c = '(' then
      (if inC then false else checkAux rest c inC (level + 1))
    else if c = ')' then
      (if inC || decide (level = 0) then false else checkAux rest c inC (level - 1))
    else if c = '-' then
      (if inC && (decide (p1 = '[') || decide (rest.headD '\x00' = ']')
                  || decide ((rest.headD '\x00').toNat < p1.toNat)) then false
       else checkAux rest c inC level)
    else checkAux rest c inC level

/-- `check(ipt)` from src/pwdgen.c. -/
def check (s : List Char) : Bool := checkAux s '\x00' false 0

/-- The exit logic of `main` (pwdgen.c); identical status codes to
part_000's `main`. -/
def main (hasPattern : Bool) (pat : List Char) : Int × Bool :=
  if !hasPattern then (-1, false)
  else if !check pat then (-2, false)
  else (0, true)

end PwdgenC

/-
Helper lemmas about the working-set operations of `randchar`.
-/

/-- Two characters are equal iff their codes are. -/
theorem char_eq_iff_toNat (c d : Char) : c = d ↔ c.toNat = d.toNat := by
  constructor
  · intro h; rw [h]
  · intro h; exact Char.ext (UInt32.ext h)

/-- Code of `Char.ofNat` below the surrogate range. -/
theorem toNat_ofNat_of_small {n : Nat} (h : n < 0xd800) : (Char.ofNat n).toNat = n := by
  rw [Char.ofNat, dif_pos (Or.inl h)]
  rfl

/-- `strfind` finds exactly the members of the filled prefix, plus the
`'\x00'` sentinel slot that terminates the zero-initialised buffer. -/
theorem strfind_iff (tar : Char) (l : List Char) :
    strfind tar l = true ↔ tar ∈ l ∨ tar = '\x00' := by
  induction l with
  | nil => simp [strfind]
  | cons c rest ih => simp [strfind, ih, List.mem_cons, or_assoc]

/-- Membership after a conditional insertion, for a non-NUL character. -/
theorem mem_addIfAbsent (x c : Char) (l : List Char) (hc : c ≠ '\x00') :
    x ∈ addIfAbsent l c ↔ x ∈ l ∨ x = c := by
  unfold addIfAbsent
  by_cases h : strfind c l = true
  · rw [if_pos h]
    rcases (strfind_iff c l).1 h with h' | h'
    · constructor
      · intro hx; exact Or.inl hx
      · rintro (hx | hx)
        · exact hx
        · rwa [hx]
    · exact absurd h' hc
  · rw [if_neg h]
    simp [List.mem_append]

/-- A conditional insertion never inserts a duplicate. -/
theorem addIfAbsent_nodup (l : List Char) (c : Char) (h : l.Nodup) :
    (addIfAbsent l c).Nodup := by
  unfold addIfAbsent
  by_cases hf : strfind c l = true
  · rwa [if_pos hf]
  · rw [if_neg hf]
    have hnotmem : c ∉ l := by
      intro hm
      exact hf ((strfind_iff c l).2 (Or.inl hm))
    rw [List.nodup_append]
    refine ⟨h, List.nodup_singleton c, ?_⟩
    intro a ha hb
    rw [List.mem_singleton] at hb
    exact hnotmem (hb ▸ ha)

/-- Membership after the range-expansion loop: the result holds exactly the
previous members plus the codes `a .. a+n-1`. -/
theorem mem_addCodes (x : Char) (n : Nat) : ∀ (a : Nat) (l : List Char),
    1 ≤ a → a + n < 0xd800 →
    (x ∈ addCodes l a n ↔ x ∈ l ∨ (a ≤ x.toNat ∧ x.toNat < a + n)) := by
  induction n with
  | zero =>
    intro a l _ _
    simp [addCodes]
  | succ n ih =>
    intro a l h1 h2
    have hofn : (Char.ofNat a).toNat = a := toNat_ofNat_of_small (by omega)
    have hnn : Char.ofNat a ≠ '\x00' := by
      intro h
      rw [char_eq_iff_toNat] at h
      rw [hofn] at h
      simp [Char.toNat] at h
      omega
    rw [addCodes, ih (a + 1) _ (by omega) (by omega),
      mem_addIfAbsent x _ l hnn, char_eq_iff_toNat x _, hofn]
    constructor
    · rintro ((hx | hx) | hx)
      · exact Or.inl hx
      · exact Or.inr (by omega)
      · exact Or.inr (by omega)
    · rintro (hx | hx)
      · exact Or.inl (Or.inl hx)
      · by_cases hxa : x.toNat = a
        · exact Or.inl (Or.inr hxa)
        · exact Or.inr (by omega)

/-- The range-expansion loop keeps the working set duplicate-free. -/
theorem addCodes_nodup (n : Nat) : ∀ (a : Nat) (l : List Char),
    l.Nodup → (addCodes l a n).Nodup := by
  induction n with
  | zero => intro a l h; simpa [addCodes] using h
  | succ n ih => intro a l h; exact ih (a + 1) _ (addIfAbsent_nodup l _ h)

/-- Step of the class scan on an ordinary item (not `']'`, `'-'` or an
escape): one conditional insertion, advance one byte. -/
theorem classScanAux_cons_other (c : Char) (rest : List Char) (prev : Char)
    (i : Nat) (chars : List Char) (h1 : c ≠ ']') (h2 : c ≠ '-') (h3 : c ≠ '\\') :
    P000.classScanAux (c :: rest) prev i chars =
      P000.classScanAux rest c (i + 1) (addIfAbsent chars c) := by
  rw [P000.classScanAux.eq_4 prev i chars c rest
      (fun _ _ hc _ => h3 hc) (fun hc _ => h3 hc)]
  simp [h1, h2]

/-- The class scan of `randchar` keeps the working set duplicate-free
(strong induction on the length of the remaining pattern, since an escaped
item consumes two bytes). -/
theorem classScanAux_nodup (n : Nat) : ∀ (rem : List Char), rem.length ≤ n →
    ∀ (prev : Char) (i : Nat) (chars : List Char), chars.Nodup →
    ((P000.classScanAux rem prev i chars).1).Nodup := by
  induction n with
  | zero =>
    intro rem hlen prev i chars h
    have hnil : rem = [] := List.length_eq_zero.1 (Nat.le_zero.1 hlen)
    subst hnil
    exact h
  | succ n ih =>
    intro rem hlen prev i chars h
    cases rem with
    | nil => exact h
    | cons c rest =>
      have hrest : rest.length ≤ n := by
        simp at hlen
        omega
      by_cases h3 : c = '\\'
      · subst h3
        cases rest with
        | nil => exact addIfAbsent_nodup chars _ h
        | cons d rest' =>
          have hrest' : rest'.length ≤ n := by
            simp at hlen
            omega
          exact ih rest' hrest' d (i + 2) _ (addIfAbsent_nodup chars d h)
      · by_cases h1 : c = ']'
        · subst h1
          exact h
        · by_cases h2 : c = '-'
          · subst h2
            exact ih rest hrest '-' (i + 1) _ (addCodes_nodup _ _ _ h)
          · rw [classScanAux_cons_other c rest prev i chars h1 h2 h3]
            exact ih rest hrest c (i + 1) _ (addIfAbsent_nodup chars c h)

/-- Every working set built by the class scan is duplicate-free. -/
theorem classChars_nodup (s : List Char) (b : Nat) : (P000.classChars s b).Nodup := by
  exact classScanAux_nodup (s.drop b).length (s.drop b) le_rfl _ _ [] List.nodup_nil

/-- Step of part_000's `check` scan on an ordinary printable character (none
of the structural cases): no constraint, advance one byte. -/
theorem checkAux_cons_other (c : Char) (rest : List Char) (i : Nat) (p1 p2 : Char)
    (inC : Bool) (level : Nat) (h0 : c ≠ '\x00') (hp : isPrintable c = true)
    (h1 : c ≠ '[') (h2 : c ≠ ']') (h3 : c ≠ '(') (h4 : c ≠ ')') (h5 : c ≠ '-')
    (h6 : c ≠ '\\') :
    P000.checkAux (c :: rest) i p1 p2 inC level =
      P000.checkAux rest (i + 1) c p1 inC level := by
  rw [P000.checkAux.eq_4 i p1 p2 inC level c rest
      (fun _ _ hc _ => h6 hc) (fun hc _ => h6 hc)]
  simp [h0, hp, h1, h2, h3, h4, h5]

set_option maxRecDepth 4000 in
/-- Every slot of the expanded set of the class `[A-Za-z]` (inside the C2
pattern) is an ASCII letter. -/
theorem lettersClass_ok : ∀ m, m < 52 →
    isAsciiLetter ((P000.classChars (String.toList "([A-Za-z][0-9])*3") 2).getD m '\x00')
      = true := by decide

set_option maxRecDepth 4000 in
/-- Every slot of the expanded set of the class `[0-9]` (inside the C2
pattern) is a decimal digit. -/
theorem digitsClass_ok : ∀ m, m < 10 →
    isDigit09 ((P000.classChars (String.toList "([A-Za-z][0-9])*3") 10).getD m '\x00')
      = true := by decide

/-- The two validators perform identical steps on any character other than
`'['`, `'-'` and `'\\'` while outside a class: with no `'['` in the pattern
the class flag stays false in both scans, so the remaining rules coincide. -/
theorem checksAgreeAux (l : List Char) : ∀ (i : Nat) (p1 p2 q1 : Char) (level : Nat),
    (∀ c ∈ l, c ≠ '[' ∧ c ≠ '-' ∧ c ≠ '\\') →
    P000.checkAux l i p1 p2 false level = PwdgenC.checkAux l q1 false level := by
  induction l with
  | nil => intro i p1 p2 q1 level _; rfl
  | cons c rest ih =>
    intro i p1 p2 q1 level h
    obtain ⟨h1, h2, h3⟩ := h c (List.mem_cons_self c rest)
    have hrest : ∀ x ∈ rest, x ≠ '[' ∧ x ≠ '-' ∧ x ≠ '\\' :=
      fun x hx => h x (List.mem_cons_of_mem c hx)
    rw [P000.checkAux.eq_4 i p1 p2 false level c rest
        (fun _ _ hc _ => h3 hc) (fun hc _ => h3 hc)]
    rw [PwdgenC.checkAux.eq_2]
    by_cases h0 : c = '\x00'
    · simp [h0]
    · by_cases hp : isPrintable c
      · by_cases hRB : c = ']'
        · simp [h0, hp, hRB]
        · by_cases hOP : c = '('
          · simp [h0, hp, hRB, hOP, h1, h2]
            rw [ih (i + 1) '(' p1 '(' (level + 1) hrest]
          · by_cases hCP : c = ')'
            · by_cases hlv : level = 0
              · simp [h0, hp, hRB, hOP, hCP, h1, h2, hlv]
              · simp [h0, hp, hRB, hOP, hCP, h1, h2, hlv]
                rw [ih (i + 1) ')' p1 ')' (level - 1) hrest]
            · simp [h0, hp, hRB, hOP, hCP, h1, h2]
              rw [ih (i + 1) c p1 c level hrest]
      · simp [h0, hp]

/-
Claim theorems.
-/

/-- C1: the claim states that the validator rejects every pattern containing
an empty character class, in particular that `check` returns 0 on the pattern
`[]`, so that `chars[rand() % len]` never divides by zero.  The code violates
this: part_000's `check` accepts the two-byte pattern `[]` (the empty-class
test on `']'` is skipped when `ipt - ipt_origin >= 2` fails, i.e. when the
class opens at offset 0), yet the working set that `randchar` builds for that
class is empty, so the draw would be `chars[rand() % 0]`.  The same `check`
does reject `a[]`, whose empty class starts later, showing the rejection is
the intent. -/
theorem c1_empty_class_reaches_modulo_zero :
    P000.check (String.toList "[]") = true ∧
    P000.classChars (String.toList "[]") 1 = [] ∧
    (P000.classChars (String.toList "[]") 1).length = 0 ∧
    P000.check (String.toList "a[]") = false := by decide

/-- C3: the claim states that a `-` outside any character class imposes no
validity constraint, e.g. that `a-b` and `b-a` are both accepted.  The code
violates this: in part_000's `check` the descending-range comparison
`(ipt[1] == '\\' ? ipt[2] : ipt[1]) < ipt[-1]` is executed even when `in` is
0, so `b-a` is rejected while `a-b` is accepted; pwdgen.c's `check`, whose
`'-'` rule is entirely guarded by `in != 0`, accepts both. -/
theorem c3_dash_outside_class :
    P000.check (String.toList "a-b") = true ∧
    P000.check (String.toList "b-a") = false ∧
    PwdgenC.check (String.toList "a-b") = true ∧
    PwdgenC.check (String.toList "b-a") = true := by decide

/-- C7: a backslash disables the structural meaning of the following
character in both the validator and the interpreter: `\[a\]` passes `check`,
and `generate` emits exactly the literal bytes `[a]` for it, with the draw
counter left at 0 (no random draw occurs, hence no class was formed). -/
theorem c7_escape_is_literal :
    P000.check (String.toList "\\[a\\]") = true ∧
    (∀ g : Nat → Nat,
      P000.generate g (String.toList "\\[a\\]") 10 = some (['[', 'a', ']'], 5, 0)) :=
  ⟨by decide, fun _ => rfl⟩

/-- C8: class expansion deduplicates: every working set built by `randchar`'s
scan is duplicate-free, the sets of `[aab]` and `[ab]` are equal, both have
exactly 2 elements, and each of the two characters is the outcome of
`chars[rand() % len]` for some value of the random source. -/
theorem c8_class_expansion_dedups :
    (∀ (s : List Char) (b : Nat), (P000.classChars s b).Nodup) ∧
    P000.classChars (String.toList "[aab]") 1 = P000.classChars (String.toList "[ab]") 1 ∧
    (P000.classChars (String.toList "[aab]") 1).length = 2 ∧
    (∃ r : Nat, (P000.classChars (String.toList "[aab]") 1).getD
        (r % (P000.classChars (String.toList "[aab]") 1).length) '\x00' = 'a') ∧
    (∃ r : Nat, (P000.classChars (String.toList "[aab]") 1).getD
        (r % (P000.classChars (String.toList "[aab]") 1).length) '\x00' = 'b') :=
  ⟨classChars_nodup, by decide, by decide, ⟨0, by decide⟩, ⟨1, by decide⟩⟩

/-- C9: the three exit outcomes of `main` (in both variants): a missing
pattern argument gives status -1 with no generation attempted, a pattern
rejected by `check` gives status -2 with no generation attempted, a validated
pattern gives status 0 with generation attempted, and the three statuses are
pairwise distinct with only the success status zero. -/
theorem c9_exit_statuses (pat : List Char) :
    P000.main false pat = (-1, false) ∧
    P000.main true pat =
      (if P000.check pat then ((0 : Int), true) else ((-2 : Int), false)) ∧
    PwdgenC.main false pat = (-1, false) ∧
    PwdgenC.main true pat =
      (if PwdgenC.check pat then ((0 : Int), true) else ((-2 : Int), false)) ∧
    (-1 : Int) ≠ 0 ∧ (-2 : Int) ≠ 0 ∧ (-1 : Int) ≠ (-2 : Int) := by
  refine ⟨rfl, ?_, rfl, ?_, by decide, by decide, by decide⟩
  · unfold P000.main
    by_cases h : P000.check pat <;> simp [h]
  · unfold PwdgenC.main
    by_cases h : PwdgenC.check pat <;> simp [h]

/-- C4: inside a class a descending range is rejected while a degenerate one
is accepted: `check` returns 0 on `[b-a]` and 1 on `[a-a]`, and for every
random stream the password generated from `[a-a]` is exactly the single
character `a`. -/
theorem c4_descending_and_degenerate_ranges :
    P000.check (String.toList "[b-a]") = false ∧
    P000.check (String.toList "[a-a]") = true ∧
    (∀ g : Nat → Nat,
      P000.generate g (String.toList "[a-a]") 10 = some (['a'], 5, 1)) := by
  refine ⟨by decide, by decide, fun g => ?_⟩
  have h : P000.generate g (String.toList "[a-a]") 10 =
      some ([(P000.classChars (String.toList "[a-a]") 1).getD (g 0 % 1) '\x00'], 5, 1) := rfl
  rw [h, Nat.mod_one]
  decide

/-- C6: `randchar` emits exactly N characters when the class is followed by a
`*N` suffix (a `*`, then a digit run with first digit 1-9, parsed by
`strtol`), and exactly 1 character otherwise; in particular `[a]*5` always
generates exactly the five characters `aaaaa`. -/
theorem c6_class_draw_count :
    (∀ (g : Nat → Nat) (s : List Char) (b k : Nat),
      ((P000.randchar g s b k).1).length =
        (if charAt s ((P000.classScan s b).2 + 1) = '*'
            ∧ isDigit19 (charAt s ((P000.classScan s b).2 + 2)) = true
         then (parseDigits s ((P000.classScan s b).2 + 2)).1 else 1)) ∧
    (∀ g : Nat → Nat,
      P000.generate g (String.toList "[a]*5") 10 = some (['a', 'a', 'a', 'a', 'a'], 5, 5)) := by
  constructor
  · intro g s b k
    unfold P000.randchar
    split <;> rename_i hcond <;> simp [hcond]
  · intro g
    have h : P000.generate g (String.toList "[a]*5") 10 =
        some ([(P000.classChars (String.toList "[a]*5") 1).getD (g 0 % 1) '\x00',
               (P000.classChars (String.toList "[a]*5") 1).getD (g 1 % 1) '\x00',
               (P000.classChars (String.toList "[a]*5") 1).getD (g 2 % 1) '\x00',
               (P000.classChars (String.toList "[a]*5") 1).getD (g 3 % 1) '\x00',
               (P000.classChars (String.toList "[a]*5") 1).getD (g 4 % 1) '\x00'], 5, 5) := rfl
    rw [h]
    simp only [Nat.mod_one]
    rfl

/-- C10's counterexample: the claim states that the two `check` variants
accept exactly the same patterns; they disagree on the concrete pattern
`a[]`, which pwdgen.c's `check` accepts and part_000's rejects. -/
theorem c10_checks_differ_on_empty_class :
    PwdgenC.check (String.toList "a[]") = true ∧
    P000.check (String.toList "a[]") = false := by decide

/-- C10 amended: the two validators agree on every pattern that contains none
of `'['`, `'-'` and `'\\'` (they differ on patterns exercising the empty
class rule, the out-of-class descending-range rule, or escapes). -/
theorem c10_checks_agree_without_specials (l : List Char)
    (h : ∀ c ∈ l, c ≠ '[' ∧ c ≠ '-' ∧ c ≠ '\\') :
    PwdgenC.check l = P000.check l :=
  (checksAgreeAux l 0 '\x00' '\x00' '\x00' 0 h).symm

/-- Witness for the C10 amended theorem at the concrete pattern `(ab)*3`. -/
theorem c10_checks_agree_without_specials_witness :
    (∀ c ∈ String.toList "(ab)*3", c ≠ '[' ∧ c ≠ '-' ∧ c ≠ '\\') ∧
    PwdgenC.check (String.toList "(ab)*3") = P000.check (String.toList "(ab)*3") :=
  ⟨by decide, c10_checks_agree_without_specials (String.toList "(ab)*3") (by decide)⟩

set_option maxRecDepth 8000 in
/-- C2: on the validated pattern `([A-Za-z][0-9])*3` one invocation of
`generate` executes the group body exactly 3 times, re-sampling both classes
on each execution: for every random stream the output is exactly 6 draws,
consuming offsets 0..5 of the stream in order and alternating between the
letter class (body offset 2) and the digit class (body offset 10); every
possible draw from the letter class is an ASCII letter and every possible
draw from the digit class is a decimal digit, so positions 0, 2, 4 are
letters and positions 1, 3, 5 are digits. -/
theorem c2_group_repetition (g : Nat → Nat) :
    P000.generate g (String.toList "([A-Za-z][0-9])*3") 50 =
      some ([P000.drawFrom (String.toList "([A-Za-z][0-9])*3") 2 g 0,
             P000.drawFrom (String.toList "([A-Za-z][0-9])*3") 10 g 1,
             P000.drawFrom (String.toList "([A-Za-z][0-9])*3") 2 g 2,
             P000.drawFrom (String.toList "([A-Za-z][0-9])*3") 10 g 3,
             P000.drawFrom (String.toList "([A-Za-z][0-9])*3") 2 g 4,
             P000.drawFrom (String.toList "([A-Za-z][0-9])*3") 10 g 5], 17, 6) ∧
    (∀ k : Nat,
      isAsciiLetter (P000.drawFrom (String.toList "([A-Za-z][0-9])*3") 2 g k) = true) ∧
    (∀ k : Nat,
      isDigit09 (P000.drawFrom (String.toList "([A-Za-z][0-9])*3") 10 g k) = true) := by
  refine ⟨rfl, fun k => ?_, fun k => ?_⟩
  · unfold P000.drawFrom
    have hlen : (P000.classChars (String.toList "([A-Za-z][0-9])*3") 2).length = 52 := rfl
    rw [hlen]
    exact lettersClass_ok (g k % 52) (Nat.mod_lt _ (by decide))
  · unfold P000.drawFrom
    have hlen : (P000.classChars (String.toList "([A-Za-z][0-9])*3") 10).length = 10 := rfl
    rw [hlen]
    exact digitsClass_ok (g k % 10) (Nat.mod_lt _ (by decide))

/-- C5: range expansion is inclusive of both endpoints and nothing else.  For
every class `[A-B]` built from printable, non-structural endpoint characters
with `code(A) <= code(B)` — the shape of a validated range item, and `check`
indeed accepts the pattern — the working set built by `randchar` contains
exactly the characters with codes in `[code(A), code(B)]`.  In particular
`[0-3]` expands to exactly `0123`, every draw `chars[rand() % len]` is one of
these four characters, and each of them is the draw outcome for some value of
the random source. -/
theorem c5_inclusive_range (A B : Char)
    (hA1 : 0x21 ≤ A.toNat) (hA2 : A.toNat ≤ 0x7E)
    (hB1 : 0x21 ≤ B.toNat) (hB2 : B.toNat ≤ 0x7E)
    (hAB : A.toNat ≤ B.toNat)
    (hAs : A ≠ '[' ∧ A ≠ ']' ∧ A ≠ '(' ∧ A ≠ ')' ∧ A ≠ '-' ∧ A ≠ '\\')
    (hBs : B ≠ '[' ∧ B ≠ ']' ∧ B ≠ '(' ∧ B ≠ ')' ∧ B ≠ '-' ∧ B ≠ '\\') :
    P000.check ['[', A, '-', B, ']'] = true ∧
    (∀ c : Char, c ∈ P000.classChars ['[', A, '-', B, ']'] 1 ↔
        A.toNat ≤ c.toNat ∧ c.toNat ≤ B.toNat) ∧
    P000.classChars (String.toList "[0-3]") 1 = ['0', '1', '2', '3'] ∧
    (∀ r : Nat, (P000.classChars (String.toList "[0-3]") 1).getD
        (r % (P000.classChars (String.toList "[0-3]") 1).length) '\x00' ∈
        (['0', '1', '2', '3'] : List Char)) ∧
    (∀ c : Char, c ∈ P000.classChars (String.toList "[0-3]") 1 →
        ∃ r : Nat, (P000.classChars (String.toList "[0-3]") 1).getD
          (r % (P000.classChars (String.toList "[0-3]") 1).length) '\x00' = c) := by
  obtain ⟨a1, a2, a3, a4, a5, a6⟩ := hAs
  obtain ⟨b1, b2, b3, b4, b5, b6⟩ := hBs
  have hA0 : A ≠ '\x00' := fun h => by rw [h] at hA1; exact absurd hA1 (by decide)
  have hB0 : B ≠ '\x00' := fun h => by rw [h] at hB1; exact absurd hB1 (by decide)
  have hPA : isPrintable A = true := by
    simp [isPrintable]
    exact ⟨hA1, hA2⟩
  have hPB : isPrintable B = true := by
    simp [isPrintable]
    exact ⟨hB1, hB2⟩
  have hnd : ¬ (B.toNat < A.toNat) := by omega
  refine ⟨?_, ?_, by decide, ?_, ?_⟩
  · have s1 : P000.check ['[', A, '-', B, ']'] =
        P000.checkAux [A, '-', B, ']'] 1 '[' '\x00' true 0 := rfl
    have s2 : P000.checkAux [A, '-', B, ']'] 1 '[' '\x00' true 0 =
        P000.checkAux ['-', B, ']'] 2 A '[' true 0 :=
      checkAux_cons_other A ['-', B, ']'] 1 '[' '\x00' true 0 hA0 hPA a1 a2 a3 a4 a5 a6
    have s3 : P000.checkAux ['-', B, ']'] 2 A '[' true 0 =
        P000.checkAux [B, ']'] 3 '-' A true 0 := by
      rw [P000.checkAux.eq_4 2 A '[' true 0 '-' [B, ']']
          (fun _ _ hc _ => absurd hc (by decide)) (fun hc _ => absurd hc (by decide))]
      simp +decide [a1, b2, b6, hnd]
    have s4 : P000.checkAux [B, ']'] 3 '-' A true 0 =
        P000.checkAux [']'] 4 B '-' true 0 :=
      checkAux_cons_other B [']'] 3 '-' A true 0 hB0 hPB b1 b2 b3 b4 b5 b6
    have s5 : P000.checkAux [']'] 4 B '-' true 0 = true := by
      rw [P000.checkAux.eq_4 4 B '-' true 0 ']' []
          (fun _ _ hc _ => absurd hc (by decide)) (fun hc _ => absurd hc (by decide))]
      simp +decide [b1]
      rfl
    rw [s1, s2, s3, s4, s5]
  · have ha : addIfAbsent [] A = [A] := by
      simp [addIfAbsent, strfind, hA0]
    have t1 : P000.classScanAux [A, '-', B, ']'] '[' 1 [] =
        P000.classScanAux ['-', B, ']'] A 2 (addIfAbsent [] A) :=
      classScanAux_cons_other A ['-', B, ']'] '[' 1 [] a2 a5 a6
    have t2 : P000.classScanAux ['-', B, ']'] A 2 (addIfAbsent [] A) =
        P000.classScanAux [B, ']'] '-' 3
          (addCodes (addIfAbsent [] A) (A.toNat + 1) (B.toNat - (A.toNat + 1))) := by
      rw [P000.classScanAux.eq_4 A 2 (addIfAbsent [] A) '-' [B, ']']
          (fun _ _ hc _ => absurd hc (by decide)) (fun hc _ => absurd hc (by decide))]
      simp +decide [b6]
    have t3 : P000.classScanAux [B, ']'] '-' 3
          (addCodes (addIfAbsent [] A) (A.toNat + 1) (B.toNat - (A.toNat + 1))) =
        P000.classScanAux [']'] B 4
          (addIfAbsent (addCodes (addIfAbsent [] A) (A.toNat + 1) (B.toNat - (A.toNat + 1))) B) :=
      classScanAux_cons_other B [']'] '-' 3 _ b2 b5 b6
    have hscan : P000.classChars ['[', A, '-', B, ']'] 1 =
        addIfAbsent (addCodes [A] (A.toNat + 1) (B.toNat - (A.toNat + 1))) B := by
      show (P000.classScanAux [A, '-', B, ']'] '[' 1 []).1 = _
      rw [t1, t2, t3]
      rw [ha]
      rfl
    intro c
    rw [hscan, mem_addIfAbsent c B _ hB0,
        mem_addCodes c (B.toNat - (A.toNat + 1)) (A.toNat + 1) [A] (by omega) (by omega),
        List.mem_singleton, char_eq_iff_toNat c A, char_eq_iff_toNat c B]
    omega
  · intro r
    have hlen : (P000.classChars (String.toList "[0-3]") 1).length = 4 := by decide
    rw [hlen]
    exact (by decide : ∀ m, m < 4 →
        (P000.classChars (String.toList "[0-3]") 1).getD m '\x00' ∈
          (['0', '1', '2', '3'] : List Char)) _ (Nat.mod_lt _ (by decide))
  · intro c hc
    have hl : P000.classChars (String.toList "[0-3]") 1 = ['0', '1', '2', '3'] := by decide
    rw [hl] at hc
    fin_cases hc
    · exact ⟨0, by decide⟩
    · exact ⟨1, by decide⟩
    · exact ⟨2, by decide⟩
    · exact ⟨3, by decide⟩

/-- Witness for C5 at the concrete endpoints `0` and `3` (the spec's own
example class `[0-3]`), discharging every hypothesis. -/
theorem c5_inclusive_range_witness :
    (0x21 ≤ '0'.toNat ∧ '0'.toNat ≤ 0x7E ∧ 0x21 ≤ '3'.toNat ∧ '3'.toNat ≤ 0x7E ∧
     '0'.toNat ≤ '3'.toNat ∧
     ('0' ≠ '[' ∧ '0' ≠ ']' ∧ '0' ≠ '(' ∧ '0' ≠ ')' ∧ '0' ≠ '-' ∧ '0' ≠ '\\') ∧
     ('3' ≠ '[' ∧ '3' ≠ ']' ∧ '3' ≠ '(' ∧ '3' ≠ ')' ∧ '3' ≠ '-' ∧ '3' ≠ '\\')) ∧
    (P000.check ['[', '0', '-', '3', ']'] = true ∧
     (∀ c : Char, c ∈ P000.classChars ['[', '0', '-', '3', ']'] 1 ↔
        '0'.toNat ≤ c.toNat ∧ c.toNat ≤ '3'.toNat) ∧
     P000.classChars (String.toList "[0-3]") 1 = ['0', '1', '2', '3'] ∧
     (∀ r : Nat, (P000.classChars (String.toList "[0-3]") 1).getD
        (r % (P000.classChars (String.toList "[0-3]") 1).length) '\x00' ∈
        (['0', '1', '2', '3'] : List Char)) ∧
     (∀ c : Char, c ∈ P000.classChars (String.toList "[0-3]") 1 →
        ∃ r : Nat, (P000.classChars (String.toList "[0-3]") 1).getD
          (r % (P000.classChars (String.toList "[0-3]") 1).length) '\x00' = c)) :=
  ⟨by decide,
   c5_inclusive_range '0' '3' (by decide) (by decide) (by decide) (by decide)
     (by decide) (by decide) (by decide)⟩
